import Mathlib

/-!
# Verification of the AIF backtesting and risk-control core

A shallow embedding, in Lean 4, of the parts of the AIF repository that carry
real invariants: the exit-resolution logic (`strategy_helper.py`), the backtest
and cross-validation engine (`backtest.py`), the risk control
(`trade_risk_control.py`), order validation (`strategy.py`), the lookback
computation and relative conversion (`price_data.py`, `definitions.py`), and
the walk-forward splitter (`price_data_split.py`).

Prices and returns are modelled as rationals; timestamps as integers; pandas
frames as Lean lists.  Python exceptions become `Option`/`Except` values.
-/

namespace AIF

/-- Trading direction (`strategy_trading_type.py`, `TradingType`). -/
inductive TradingType where
  | long
  | short
deriving DecidableEq, Repr

/-- Round-half-to-even on rationals: the semantics of Python's builtin
`round` for the magnitudes appearing here. -/
def roundHalfEven (q : ℚ) : ℤ :=
  let f : ℤ := ⌊q⌋
  let r : ℚ := q - f
  if r < 1/2 then f
  else if 1/2 < r then f + 1
  else if f % 2 = 0 then f else f + 1

/-- `round(x, d)` from Python, on rationals. -/
def roundDec (d : ℕ) (q : ℚ) : ℚ :=
  (roundHalfEven (q * (10 : ℚ) ^ d) : ℚ) / (10 : ℚ) ^ d

/-- `round(x, 2)`. -/
def round2 (q : ℚ) : ℚ := roundDec 2 q

/-- `round(x, 3)`. -/
def round3 (q : ℚ) : ℚ := roundDec 3 q

/-- One row of a signal-bearing price frame: timestamp index plus the
columns the backtest engine reads (`High`, `Low`, `Close`,
`Enter_Trade_Signal`, `Exit_Trade_Signal`). -/
structure Bar where
  t : ℤ
  high : ℚ
  low : ℚ
  close : ℚ
  enter : Bool
  exitSig : Bool
deriving DecidableEq, Repr

/-- An exit event: when, and at what price (`strategy_helper.py`,
`ExitSignal`). -/
structure ExitSignal where
  idx : ℤ
  exitPrice : Option ℚ
deriving DecidableEq, Repr

/-- The raw per-bar stop-loss predicate of `_mark_sl_hit`:
`Low < sl` for long, `High > sl` for short. -/
def slHitRaw (sl : ℚ) (tt : TradingType) (b : Bar) : Bool :=
  if tt = TradingType.long then b.low < sl else sl < b.high

/-- The raw per-bar take-profit predicate of `_mark_tp_hit`:
`High > tp` for long, `Low < tp` for short. -/
def tpHitRaw (tp : ℚ) (tt : TradingType) (b : Bar) : Bool :=
  if tt = TradingType.long then tp < b.high else b.low < tp

/-- Rewrites a raw hit column so that only the rows whose timestamp equals
the earliest hit timestamp stay `true` (the "Only first signal is relevant"
block shared by `_mark_sl_hit` and `_mark_tp_hit`). -/
def keepFirstHit (bars : List Bar) (raw : List Bool) : List Bool :=
  match (((bars.zip raw).filter (·.2)).map (·.1.t)).min? with
  | none => raw
  | some ft => bars.map (fun b => b.t = ft)

/-- `_mark_sl_hit(price_data_df, sl_price, trading_type)` for a present
`sl_price`: mark every bar breaching the stop, then keep only the first. -/
def markSlHit (bars : List Bar) (sl : ℚ) (tt : TradingType) : List Bool :=
  keepFirstHit bars (bars.map (slHitRaw sl tt))

/-- `_mark_tp_hit(price_data_df, tp_price, trading_type)` for a present
`tp_price`. -/
def markTpHit (bars : List Bar) (tp : ℚ) (tt : TradingType) : List Bool :=
  keepFirstHit bars (bars.map (tpHitRaw tp tt))

/-- `min(df[df[col]].index)` over a marked frame: the smallest timestamp of
a marked row, if any row is marked. -/
def minMarkedIdx (bars : List Bar) (marks : List Bool) : Option ℤ :=
  (((bars.zip marks).filter (·.2)).map (·.1.t)).min?

/-- `df.loc[t, 'Close']`: the Close of the row labelled `t`. -/
def closeAt (bars : List Bar) (t : ℤ) : Option ℚ :=
  (bars.find? (fun b => b.t = t)).map (·.close)

/-- The `min_exit_idx` computed by `get_exit_for_entry_signal`: the
earliest timestamp whose `Exit_Trade_Signal` column is true. -/
def exitCandidate (rest : List Bar) : Option ℤ :=
  ((rest.filter (·.exitSig)).map (·.t)).min?

/-- The `min_sl_idx` computed by `get_exit_for_entry_signal`: the earliest
stop-loss touch, absent when no stop-loss price is configured. -/
def slCandidate (rest : List Bar) (slPrice : Option ℚ) (tt : TradingType) :
    Option ℤ :=
  match slPrice with
  | none => none
  | some sl => minMarkedIdx rest (markSlHit rest sl tt)

/-- The `min_tp_idx` computed by `get_exit_for_entry_signal`: the earliest
take-profit touch, absent when no take-profit price is configured. -/
def tpCandidate (rest : List Bar) (tpPrice : Option ℚ) (tt : TradingType) :
    Option ℤ :=
  match tpPrice with
  | none => none
  | some tp => minMarkedIdx rest (markTpHit rest tp tt)

/-- `get_exit_for_entry_signal(price_data_for_signal_df, sl_price, tp_price,
trading_type)` from `strategy_helper.py`.  The argument holds the rows from
the entry signal onwards; the first row (the entry bar itself) is dropped,
the earliest exit-signal / stop-loss / take-profit timestamps are collected,
and the overall earliest wins, stop-loss first on ties, then take-profit,
then the signal exit priced at that bar's Close. -/
def getExitForEntrySignal (post : List Bar) (slPrice tpPrice : Option ℚ)
    (tt : TradingType) : Option ExitSignal :=
  let rest := post.drop 1
  let minExitIdx : Option ℤ := exitCandidate rest
  let minSlIdx : Option ℤ := slCandidate rest slPrice tt
  let minTpIdx : Option ℤ := tpCandidate rest tpPrice tt
  let possible := ([minExitIdx, minSlIdx, minTpIdx].filterMap id)
  match possible.min? with
  | none => none
  | some m =>
      if minSlIdx = some m then some ⟨m, slPrice⟩
      else if minTpIdx = some m then some ⟨m, tpPrice⟩
      else some ⟨m, closeAt rest m⟩

/-- One take-profit / stop-loss rule of `TradeRiskControl`: either a fixed
fractional offset from the last Close (the `float` mode of the source) or a
caller-supplied function of the frame (the `Callable` mode; the string
expression mode is an external pandas evaluator and is subsumed by this
constructor for the purposes of this development). -/
inductive RiskRule where
  | fixedFrac (f : ℚ)
  | fn (g : List Bar → ℚ)

/-- `TradeRiskControl(tp, sl)`: the take-profit rule is optional, the
stop-loss rule is required (as in the source's constructor annotation). -/
structure RiskControl where
  tp : Option RiskRule
  sl : RiskRule

/-- `TradeRiskControl.get_tp_price(price_data_df, trading_type)`: fixed
fraction above (long) or below (short) the last Close, or the rule function
applied to the frame; the result is rounded to 3 decimals.  `none` when no
take-profit rule is configured or the frame is empty. -/
def getTpPrice (rc : RiskControl) (df : List Bar) (tt : TradingType) : Option ℚ :=
  match rc.tp with
  | some (RiskRule.fixedFrac f) =>
      (df.getLast?).map (fun b =>
        round3 ((if tt = TradingType.long then 1 + f else 1 - f) * b.close))
  | some (RiskRule.fn g) => some (round3 (g df))
  | none => none

/-- `TradeRiskControl.get_sl_price(price_data_df, trading_type)`: fixed
fraction below (long) or above (short) the last Close, or the rule function
applied to the frame; rounded to 3 decimals. -/
def getSlPrice (rc : RiskControl) (df : List Bar) (tt : TradingType) : Option ℚ :=
  match rc.sl with
  | RiskRule.fixedFrac f =>
      (df.getLast?).map (fun b =>
        round3 ((if tt = TradingType.long then 1 - f else 1 + f) * b.close))
  | RiskRule.fn g => some (round3 (g df))

/-- `TradeRiskControl.get_leverage_for_prices(entry_price_planned, sl_price,
trading_type, max_leverage)`.  `leverageReduction` is the global setting
`settings.trading.leverage_reduction`, threaded explicitly.  `none` models
the `ValueError` raised when `sl_price` is `None`. -/
def getLeverageForPrices (leverageReduction : ℚ) (entryPricePlanned : ℚ)
    (slPrice : Option ℚ) (tt : TradingType) (maxLeverage : ℤ) : Option ℤ :=
  match slPrice with
  | none => none
  | some sl =>
      let leverage : ℤ :=
        if tt = TradingType.long then
          ⌊1 / ((entryPricePlanned - sl) / entryPricePlanned)⌋
        else
          ⌊1 / ((sl - entryPricePlanned) / entryPricePlanned)⌋
      let leverageAdjusted : ℤ := ⌊(1 - leverageReduction) * (leverage : ℚ)⌋
      some (min leverageAdjusted maxLeverage)

/-- `_get_profit_for_trade(entry_price, exit_price, trading_type, leverage,
fees_per_trade)` from `backtest.py`. -/
def getProfitForTrade (entryPrice exitPrice : ℚ) (tt : TradingType)
    (leverage : ℤ) (feesPerTrade : ℚ) : ℚ :=
  let profitAbs := if tt = TradingType.long then exitPrice - entryPrice
                   else entryPrice - exitPrice
  (profitAbs / entryPrice) * (leverage : ℚ) - feesPerTrade * (leverage : ℚ)

/-- `_get_profit_for_signal(strategy, price_data_df, idx, max_leverage,
fees_per_trade)`: take-profit and stop-loss are computed on the rows up to
and including `idx`, the exit is searched in the rows from `idx` on, and on
a found exit the leveraged net return and the exit timestamp are produced.
`none` covers the `(0, None)` no-exit return (and the frame/stop
degeneracies that would raise in Python and cannot occur for an entry index
taken from the frame). -/
def getProfitForSignal (leverageReduction : ℚ) (rc : RiskControl)
    (tt : TradingType) (df : List Bar) (idx : ℤ) (maxLeverage : ℤ)
    (feesPerTrade : ℚ) : Option (ℚ × ℤ) :=
  let untilSignal := df.filter (fun b => b.t ≤ idx)
  let slPrice := getSlPrice rc untilSignal tt
  let tpPrice := getTpPrice rc untilSignal tt
  let sinceSignal := df.filter (fun b => idx ≤ b.t)
  match getExitForEntrySignal sinceSignal slPrice tpPrice tt,
        untilSignal.getLast? with
  | some es, some lastBar =>
      match es.exitPrice,
            getLeverageForPrices leverageReduction lastBar.close slPrice tt
              maxLeverage with
      | some exitPrice, some leverage =>
          some (getProfitForTrade lastBar.close exitPrice tt leverage
                  feesPerTrade, es.idx)
      | _, _ => none
  | _, _ => none

/-- One recorded backtest trade: entry timestamp, exit timestamp and
realized return.  `evaluate_performance` records the return and logs the
two timestamps; they are carried here so the trade sequence can be spoken
about. -/
structure Trade where
  entry : ℤ
  exit : ℤ
  profit : ℚ
deriving DecidableEq, Repr

/-- The entry loop of `evaluate_performance`: walk the entry-signal
timestamps, skip any that is not strictly after the last recorded exit
(`last_exit_idx` starts at `datetime.min`, modelled by `⊥`), and record a
trade whenever an exit resolves. -/
def evalLoop (leverageReduction : ℚ) (rc : RiskControl) (tt : TradingType)
    (df : List Bar) (maxLeverage : ℤ) (feesPerTrade : ℚ) :
    List ℤ → WithBot ℤ → List Trade
  | [], _ => []
  | idx :: rest, lastExitIdx =>
      if lastExitIdx < (idx : WithBot ℤ) then
        match getProfitForSignal leverageReduction rc tt df idx maxLeverage
                feesPerTrade with
        | some (p, exitIdx) =>
            ⟨idx, exitIdx, p⟩ ::
              evalLoop leverageReduction rc tt df maxLeverage feesPerTrade
                rest (exitIdx : WithBot ℤ)
        | none =>
            evalLoop leverageReduction rc tt df maxLeverage feesPerTrade
              rest lastExitIdx
      else
        evalLoop leverageReduction rc tt df maxLeverage feesPerTrade rest
          lastExitIdx

/-- The sequence of trades recorded by `evaluate_performance` over a
signal-bearing frame. -/
def backtestTrades (leverageReduction : ℚ) (rc : RiskControl)
    (tt : TradingType) (df : List Bar) (maxLeverage : ℤ)
    (feesPerTrade : ℚ) : List Trade :=
  evalLoop leverageReduction rc tt df maxLeverage feesPerTrade
    ((df.filter (·.enter)).map (·.t)) ⊥

/-- A Python float that is either NaN or an actual number; the win rate and
PPS fields of `StrategyPerformance` use it. -/
inductive FloatVal where
  | nan
  | val (q : ℚ)
deriving DecidableEq, Repr

/-- `StrategyPerformance` from `strategy.py`. -/
structure StrategyPerformance where
  winRate : FloatVal
  pps : FloatVal
  performanceDetailed : List ℚ
deriving DecidableEq, Repr

/-- The metric block shared by `evaluate_performance` and
`cross_validate_strategy` (lines 99–114 resp. 59–74 of `backtest.py`):
win rate is the rounded fraction of positive returns, or NaN with zero
signals; PPS is the rounded total divided by the signal count, rounded
again, or `0.0` with zero signals. -/
def aggregateMetrics (performanceDetailed : List ℚ) : FloatVal × FloatVal :=
  let signals := performanceDetailed.length
  let performance := round2 performanceDetailed.sum
  let profitableSignals := (performanceDetailed.filter (fun x => 0 < x)).length
  let winRate := if 0 < signals then
      FloatVal.val (round2 ((profitableSignals : ℚ) / (signals : ℚ)))
    else FloatVal.nan
  let pps := if 0 < signals then
      FloatVal.val (round3 (performance / (signals : ℚ)))
    else FloatVal.val 0
  (winRate, pps)

/-- `evaluate_performance(strategy, price_data)` from `backtest.py`,
parameterized over the strategy's risk control, direction and the global
settings it reads. -/
def evaluatePerformance (leverageReduction : ℚ) (rc : RiskControl)
    (tt : TradingType) (df : List Bar) (maxLeverage : ℤ)
    (feesPerTrade : ℚ) : StrategyPerformance :=
  let performanceDetailed :=
    (backtestTrades leverageReduction rc tt df maxLeverage feesPerTrade).map
      (·.profit)
  let m := aggregateMetrics performanceDetailed
  ⟨m.1, m.2, performanceDetailed⟩

/-- `np.arange(a, b)`: the integers from `a` (inclusive) to `b`
(exclusive); empty when `b ≤ a`. -/
def npArange (a b : ℤ) : List ℤ :=
  (List.range (b - a).toNat).map (fun (k : ℕ) => a + (k : ℤ))

/-- `np.arange(n)`. -/
def npArange0 (n : ℤ) : List ℤ := npArange 0 n

/-- `PriceDataSplit.split(X)` from `price_data_split.py`, over the length
of the input frame: for `i` from `folds` down to `1`, the training indices
are `arange(len - i*fold_size)` and the test indices the following
`fold_size` positions.  `offset` trailing rows are cut away first when the
splitter was built for the validation phase (`offset = 0` otherwise). -/
def priceDataSplit (offset folds foldSize : ℕ) (n : ℕ) :
    List (List ℤ × List ℤ) :=
  let nCut : ℕ := if 0 < offset then n - offset else n
  (List.range folds).map (fun k =>
    let i : ℕ := folds - k
    let start : ℤ := (nCut : ℤ) - (i : ℤ) * (foldSize : ℤ)
    (npArange0 start, npArange start (start + (foldSize : ℤ))))

/-- `X.iloc[idx]` for an integer position array: positions count from the
end when negative; out-of-range positions (which would raise in Python) are
dropped. -/
def selectRows (df : List Bar) (idx : List ℤ) : List Bar :=
  idx.filterMap (fun i =>
    if 0 ≤ i then df.get? i.toNat else df.get? (df.length - (-i).toNat))

/-- The aggregation tail of `cross_validate_strategy` (lines 57–74 of
`backtest.py`): per-fold sums, concatenated per-trade returns, the shared
metric block, and a `StrategyPerformance` whose detailed list holds the
per-fold sums. -/
def crossValidateAggregate (performancePerFoldDetailed : List (List ℚ)) :
    StrategyPerformance :=
  let performancePerFold := performancePerFoldDetailed.map (·.sum)
  let performanceDetailed := performancePerFoldDetailed.flatten
  let m := aggregateMetrics performanceDetailed
  ⟨m.1, m.2, performancePerFold⟩

/-- `cross_validate_strategy(strategy, price_data)` from `backtest.py`:
split the frame with `PriceDataSplit` (testing phase, so `offset = 0`),
evaluate the strategy on each test fold, and aggregate.  `folds` and
`foldSize` are the global settings the splitter reads.  Strategy
initialization per training fold re-fits a classifier only; a rule-based
strategy's signal columns do not depend on it. -/
def crossValidateStrategy (folds foldSize : ℕ) (leverageReduction : ℚ)
    (rc : RiskControl) (tt : TradingType) (df : List Bar) (maxLeverage : ℤ)
    (feesPerTrade : ℚ) : StrategyPerformance :=
  let performancePerFoldDetailed :=
    (priceDataSplit 0 folds foldSize df.length).map (fun fold =>
      (evaluatePerformance leverageReduction rc tt (selectRows df fold.2)
        maxLeverage feesPerTrade).performanceDetailed)
  crossValidateAggregate performancePerFoldDetailed

/-- The fields of `OrderInformation` that its validation reads; the
`from_strategy` reference enters only through whether its `exit_signal`
is present. -/
structure OrderInformation where
  hasExitSignal : Bool
  tradingType : TradingType
  pps : ℚ
  enteringPricePlanned : ℚ
  leverage : ℤ
  tpPrice : Option ℚ
  slPrice : Option ℚ
deriving DecidableEq, Repr

/-- The `lvg_by_sl` local of `OrderInformation._validate_leverage`: the
leverage that liquidation exactly at the stop-loss price would imply. -/
def lvgBySl (o : OrderInformation) (sl : ℚ) : ℚ :=
  if o.tradingType = TradingType.long then
    1 / ((o.enteringPricePlanned - sl) / o.enteringPricePlanned)
  else
    1 / ((sl - o.enteringPricePlanned) / o.enteringPricePlanned)

/-- `OrderInformation._validate_leverage`: with a stop-loss price present,
the leverage implied by the stop distance must not fall below `0.99` times
the order's leverage. -/
def validateLeverage (o : OrderInformation) : Bool :=
  match o.slPrice with
  | none => true
  | some sl => ¬ (lvgBySl o sl < (99 / 100 : ℚ) * (o.leverage : ℚ))

/-- `OrderInformation.__post_init__`: constructing the frozen dataclass
raises unless an exit path (fixed TP or exit-signal strategy) exists and
the leverage check passes. -/
def mkOrderInformation (o : OrderInformation) : Except String OrderInformation :=
  if o.tpPrice = none ∧ o.hasExitSignal = false then
    Except.error "Neither tp_price not exit strategy are provided."
  else if ¬ validateLeverage o then
    Except.error "Incorrect leverage."
  else
    Except.ok o

/-- `Timeframe` from `definitions.py`. -/
inductive Timeframe where
  | HOURLY
  | FOURHOURLY
  | DAILY
  | WEEKLY
deriving DecidableEq, Repr

/-- The `time_frame_conversions` table of `Timeframe.convert`: the next
coarser timeframe and how many bars of the current one it spans. -/
def tfConversions : Timeframe → Option (Timeframe × ℕ)
  | Timeframe.HOURLY => some (Timeframe.FOURHOURLY, 4)
  | Timeframe.FOURHOURLY => some (Timeframe.DAILY, 6)
  | Timeframe.DAILY => some (Timeframe.WEEKLY, 7)
  | Timeframe.WEEKLY => none

/-- The `while` loop of `Timeframe.convert`, with fuel covering the chain
length; `none` models the `ValueError` for an impossible conversion. -/
def tfConvertLoop : ℕ → Timeframe → Timeframe → ℕ → Option ℕ
  | fuel, cur, tgt, acc =>
      if cur = tgt then some acc
      else
        match fuel, tfConversions cur with
        | 0, _ => none
        | _, none => none
        | f + 1, some (nxt, k) => tfConvertLoop f nxt tgt (acc * k)

/-- `Timeframe.convert(from_timeframe, to_timeframe)`: how many
`fromTf`-bars fit into one `toTf`-bar, walking the conversion chain; fuel 4
exceeds the chain length, so the loop semantics are exact. -/
def tfConvert (fromTf toTf : Timeframe) : Option ℕ :=
  tfConvertLoop 4 fromTf toTf 1

/-- `PriceDataComplete.get_lookback_window`, over the base timeframe and
the `(timeframe, max_window)` pairs held in `_price_data` (the base
timeframe among them): maximize the converted, shift-adjusted window over
all held timeframes and add one.  `none` models the `ValueError` raised by
an impossible conversion. -/
def getLookbackWindow (base : Timeframe) (held : List (Timeframe × ℕ)) :
    Option ℕ :=
  (held.foldl (fun acc h =>
    match acc, tfConvert base h.1 with
    | some lw, some factor =>
        let adjustmentFactor := if h.1 ≠ base ∧ 0 < h.2 then 1 else 0
        some (max lw (factor * (h.2 + adjustmentFactor)))
    | _, _ => none) (some 0)).map (· + 1)

/-- A pandas frame seen column-wise: ordered association list from column
name to the column's values. -/
abbrev ColFrame := List (String × List ℚ)

/-- The values of column `c`, when present (`df[c]`). -/
def getCol : ColFrame → String → Option (List ℚ)
  | [], _ => none
  | p :: tl, c => if p.1 = c then some p.2 else getCol tl c

/-- Overwrite the values of column `c` (`df.loc[:, c] = vs` on an existing
column). -/
def setCol : ColFrame → String → List ℚ → ColFrame
  | [], _, _ => []
  | p :: tl, c, vs => (if p.1 = c then (p.1, vs) else p) :: setCol tl c vs

/-- `df.drop(columns=[c])`. -/
def dropCol : ColFrame → String → ColFrame
  | [], _ => []
  | p :: tl, c => if p.1 = c then dropCol tl c else p :: dropCol tl c

/-- `_convert_to_relative(price_data_df, column)` from `price_data.py`:
rewrite the column as `(value − Close) / Close`, row-wise. -/
def convertToRelative (df : ColFrame) (c : String) : ColFrame :=
  match getCol df c, getCol df "Close" with
  | some vs, some cl =>
      setCol df c (List.zipWith (fun v k => (v - k) / k) vs cl)
  | _, _ => df

/-- The state of a `PriceDataTimeframe` that `get_price_data_df` reads:
the stored frame, the relative-convertible column names and the recorded
`max_window`. -/
structure PriceDataTimeframe where
  priceDataDf : ColFrame
  relativeCols : List String
  maxWindow : ℕ
deriving DecidableEq

/-- `PriceDataTimeframe.get_price_data_df(convert_ohl, convert_indicators,
drop_close_volume_column)`: work on a copy of the stored frame, optionally
rewrite Open/High/Low and the relative-convertible columns as relative to
Close, optionally drop Close and Volume, and return the copy together with
the (unassigned, hence unchanged) object state. -/
def getPriceDataDf (s : PriceDataTimeframe)
    (convertOhl convertIndicators dropCloseVolumeColumn : Bool) :
    ColFrame × PriceDataTimeframe :=
  let prep := s.priceDataDf
  let prep := if convertOhl then
      convertToRelative (convertToRelative (convertToRelative prep "Open")
        "High") "Low"
    else prep
  let prep := if convertIndicators then
      s.relativeCols.foldl convertToRelative prep
    else prep
  let prep := if dropCloseVolumeColumn && convertOhl then
      dropCol (dropCol prep "Close") "Volume"
    else prep
  (prep, s)

/-! Concrete fixtures used to instantiate the theorems below on closed
inputs. -/

/-- A risk control with a 100 % take-profit and a 50 % stop-loss. -/
def wRc : RiskControl :=
  ⟨some (RiskRule.fixedFrac 1), RiskRule.fixedFrac (1/2)⟩

/-- A four-bar frame producing two complete long trades under `wRc`:
entries at times 1 and 3, take-profit exits at times 2 and 4. -/
def wBars : List Bar :=
  [⟨1, 110, 95, 100, true, false⟩, ⟨2, 250, 100, 150, false, false⟩,
   ⟨3, 120, 90, 100, true, false⟩, ⟨4, 300, 80, 120, false, false⟩]

/-- An entry bar followed by a bar breaching both the stop-loss 50 and the
take-profit 200 at the same timestamp. -/
def wTieBars : List Bar :=
  [⟨1, 110, 95, 100, true, false⟩, ⟨2, 250, 40, 150, false, false⟩]

/-- An entry bar followed by a bar carrying a true exit signal and touching
neither price level. -/
def wSigBars : List Bar :=
  [⟨1, 11, 9, 10, true, false⟩, ⟨2, 10, 9, 8, false, true⟩]

/-- A valid long order: fixed take-profit present, stop 10 % below entry,
leverage 5 well under the implied liquidation leverage 10. -/
def wOrder : OrderInformation :=
  ⟨false, TradingType.long, 0, 1000, 5, some 1100, some 900⟩

/-- A small stored frame with one indicator column marked
relative-convertible. -/
def wFrame : PriceDataTimeframe :=
  ⟨[("Open", [10]), ("High", [12]), ("Low", [9]), ("Close", [10]),
    ("Volume", [5]), ("EMA", [11])], ["EMA"], 0⟩

/-! ## General lemmas -/

/-- `min?` on integer lists characterized as membership plus lower bound. -/
lemma intMin?_eq_some_iff {xs : List ℤ} {a : ℤ} :
    xs.min? = some a ↔ a ∈ xs ∧ ∀ b ∈ xs, a ≤ b := by
  haveI : Std.Antisymm ((· : ℤ) ≤ ·) := ⟨fun h h2 => le_antisymm h h2⟩
  exact List.min?_eq_some_iff (fun _ => le_refl _) (fun _ _ => min_choice _ _)
    (fun _ _ _ => le_min_iff)

/-- Membership in `npArange`. -/
lemma mem_npArange {a b x : ℤ} : x ∈ npArange a b ↔ a ≤ x ∧ x < b := by
  unfold npArange
  rw [List.mem_map]
  constructor
  · rintro ⟨k, hk, rfl⟩
    rw [List.mem_range] at hk
    omega
  · intro h
    refine ⟨(x - a).toNat, ?_, by omega⟩
    rw [List.mem_range]
    omega

/-- Length of `npArange`. -/
lemma length_npArange (a b : ℤ) : (npArange a b).length = (b - a).toNat := by
  unfold npArange
  rw [List.length_map, List.length_range]

/-- Rounding an integer is the identity. -/
lemma roundHalfEven_intCast (n : ℤ) : roundHalfEven (n : ℚ) = n := by
  simp [roundHalfEven]

/-- `roundDec` is idempotent: its results carry at most `d` decimals. -/
lemma roundDec_idem (d : ℕ) (q : ℚ) : roundDec d (roundDec d q) = roundDec d q := by
  unfold roundDec
  have hp : ((10 : ℚ) ^ d) ≠ 0 := by positivity
  rw [div_mul_cancel₀ _ hp, roundHalfEven_intCast]

/-! ## C5 — leverage bound formula -/

/-- C5: for every entry price, stop-loss price, direction and maximum
leverage, `get_leverage_for_prices` returns
`min(floor((1 − leverage_reduction) · floor(1 / d)), max_leverage)` with
`d` the direction-dependent relative stop distance; in particular entry
1000, stop 900, long, max leverage 20 and reduction 0.1 yield 9. -/
theorem c5_leverage_formula :
    (∀ (leverageReduction entryPrice slPrice : ℚ) (tt : TradingType)
        (maxLeverage : ℤ),
      getLeverageForPrices leverageReduction entryPrice (some slPrice) tt
          maxLeverage =
        some (min
          ⌊(1 - leverageReduction) *
            ((⌊1 / (if tt = TradingType.long then
                      (entryPrice - slPrice) / entryPrice
                    else (slPrice - entryPrice) / entryPrice)⌋ : ℤ) : ℚ)⌋
          maxLeverage)) ∧
    getLeverageForPrices (1/10) 1000 (some 900) TradingType.long 20 = some 9 := by
  constructor
  · intro r e s tt maxLev
    cases tt <;> simp [getLeverageForPrices]
  · norm_num [getLeverageForPrices]

/-! ## C6 — order validation -/

/-- C6: constructing an `OrderInformation` fails when it carries neither a
fixed take-profit price nor an exit-signal strategy; it fails when a
stop-loss price is present and the stop-implied liquidation leverage falls
below the order's leverage times the 0.99 safety margin; otherwise the
construction succeeds with the snapshot unchanged.  The two side
conditions keep the rational-arithmetic embedding on inputs where the
Python quotients are defined. -/
theorem c6_order_validation (o : OrderInformation)
    (he : o.enteringPricePlanned ≠ 0)
    (hd : ∀ s, o.slPrice = some s → s ≠ o.enteringPricePlanned) :
    (o.tpPrice = none ∧ o.hasExitSignal = false →
      mkOrderInformation o =
        Except.error "Neither tp_price not exit strategy are provided.") ∧
    (∀ s, o.slPrice = some s →
      lvgBySl o s < (99 / 100 : ℚ) * (o.leverage : ℚ) →
      ¬(o.tpPrice = none ∧ o.hasExitSignal = false) →
      mkOrderInformation o = Except.error "Incorrect leverage.") ∧
    (¬(o.tpPrice = none ∧ o.hasExitSignal = false) →
      (∀ s, o.slPrice = some s →
        ¬ lvgBySl o s < (99 / 100 : ℚ) * (o.leverage : ℚ)) →
      mkOrderInformation o = Except.ok o) := by
  refine ⟨fun h => ?_, fun s hs hlt hne => ?_, fun hne hok => ?_⟩
  · simp [mkOrderInformation, h]
  · have hv : validateLeverage o = false := by
      simp [validateLeverage, hs, hlt]
    simp [mkOrderInformation, hne, hv]
  · have hv : validateLeverage o = true := by
      unfold validateLeverage
      cases hsl : o.slPrice with
      | none => rfl
      | some s => simpa using hok s hsl
    simp [mkOrderInformation, hne, hv]

/-- C6 witness: the concrete order `wOrder` satisfies the hypotheses and is
accepted unchanged. -/
theorem c6_order_validation_witness :
    mkOrderInformation wOrder = Except.ok wOrder := by
  refine (c6_order_validation wOrder (by norm_num [wOrder]) ?_).2.2 (by decide) ?_
  · intro s hs
    rw [show wOrder.slPrice = some 900 from rfl] at hs
    cases hs
    norm_num [wOrder]
  · intro s hs
    rw [show wOrder.slPrice = some 900 from rfl] at hs
    cases hs
    norm_num [lvgBySl, wOrder]

/-! ## C7 — lookback window -/

/-- The fold inside `get_lookback_window`, run from an already-reached
maximum, equals the plain maximum fold over the shift-adjusted converted
windows, provided every held timeframe is convertible from the base. -/
lemma lookback_foldl_eq (base : Timeframe) :
    ∀ (held : List (Timeframe × ℕ)) (lw : ℕ),
      (∀ p ∈ held, (tfConvert base p.1).isSome) →
      held.foldl (fun acc h =>
        match acc, tfConvert base h.1 with
        | some lw, some factor =>
            let adjustmentFactor := if h.1 ≠ base ∧ 0 < h.2 then 1 else 0
            some (max lw (factor * (h.2 + adjustmentFactor)))
        | _, _ => none) (some lw) =
      some (held.foldl (fun m p =>
        max m ((tfConvert base p.1).getD 0 *
          (p.2 + if p.1 ≠ base ∧ 0 < p.2 then 1 else 0))) lw)
  | [], lw, _ => rfl
  | p :: tl, lw, h => by
      obtain ⟨factor, hf⟩ := Option.isSome_iff_exists.mp (h p (by simp))
      have tlh : ∀ q ∈ tl, (tfConvert base q.1).isSome :=
        fun q hq => h q (by simp [hq])
      simp only [List.foldl_cons, hf]
      exact lookback_foldl_eq base tl _ tlh

/-- C7: `get_lookback_window` returns, over all held timeframes, the
maximum of conversion-factor(base → timeframe) × (max_window + adjustment)
— adjustment 1 exactly for a non-base timeframe with a non-zero window —
plus one. -/
theorem c7_lookback_window (base : Timeframe) (held : List (Timeframe × ℕ))
    (hc : ∀ p ∈ held, (tfConvert base p.1).isSome) :
    getLookbackWindow base held =
      some ((held.foldl (fun m p =>
        max m ((tfConvert base p.1).getD 0 *
          (p.2 + if p.1 ≠ base ∧ 0 < p.2 then 1 else 0))) 0) + 1) := by
  unfold getLookbackWindow
  rw [lookback_foldl_eq base held 0 hc]
  rfl

/-- C7 witness: an hourly base with a 10-bar hourly window and a 3-bar
daily window needs `max(10, 24·4) + 1 = 97` base bars. -/
theorem c7_lookback_window_witness :
    getLookbackWindow Timeframe.HOURLY
      [(Timeframe.HOURLY, 10), (Timeframe.DAILY, 3)] = some 97 := by
  rw [c7_lookback_window Timeframe.HOURLY
    [(Timeframe.HOURLY, 10), (Timeframe.DAILY, 3)] (by decide)]
  decide

/-! ## C8 — walk-forward folds -/

/-- The fold at list position `i` of `PriceDataSplit.split`, explicitly. -/
lemma priceDataSplit_getElem? (offset folds foldSize n i : ℕ) (hi : i < folds) :
    (priceDataSplit offset folds foldSize n)[i]? =
      some (npArange0
              (((if 0 < offset then n - offset else n : ℕ) : ℤ) -
                ((folds - i : ℕ) : ℤ) * (foldSize : ℤ)),
            npArange
              (((if 0 < offset then n - offset else n : ℕ) : ℤ) -
                ((folds - i : ℕ) : ℤ) * (foldSize : ℤ))
              ((((if 0 < offset then n - offset else n : ℕ) : ℤ) -
                ((folds - i : ℕ) : ℤ) * (foldSize : ℤ)) + (foldSize : ℤ))) := by
  unfold priceDataSplit
  rw [List.getElem?_map, List.getElem?_range hi]
  rfl

/-- C8: the folds yielded by `PriceDataSplit.split` have test windows of
fixed length `fold_size` that are chronologically ordered and pairwise
disjoint, and every index of a fold's training window is strictly smaller
than every index of its own test window. -/
theorem c8_fold_windows (offset folds foldSize n : ℕ) :
    (∀ f ∈ priceDataSplit offset folds foldSize n, f.2.length = foldSize) ∧
    (∀ (i j : ℕ) (fi fj : List ℤ × List ℤ),
      (priceDataSplit offset folds foldSize n)[i]? = some fi →
      (priceDataSplit offset folds foldSize n)[j]? = some fj → i < j →
      ∀ x ∈ fi.2, ∀ y ∈ fj.2, x < y) ∧
    (∀ (i j : ℕ) (fi fj : List ℤ × List ℤ),
      (priceDataSplit offset folds foldSize n)[i]? = some fi →
      (priceDataSplit offset folds foldSize n)[j]? = some fj → i ≠ j →
      ∀ x ∈ fi.2, x ∉ fj.2) ∧
    (∀ f ∈ priceDataSplit offset folds foldSize n, ∀ x ∈ f.1, ∀ y ∈ f.2,
      x < y) := by
  have hlen : (priceDataSplit offset folds foldSize n).length = folds := by
    unfold priceDataSplit
    rw [List.length_map, List.length_range]
  have hord : ∀ (i j : ℕ) (fi fj : List ℤ × List ℤ),
      (priceDataSplit offset folds foldSize n)[i]? = some fi →
      (priceDataSplit offset folds foldSize n)[j]? = some fj → i < j →
      ∀ x ∈ fi.2, ∀ y ∈ fj.2, x < y := by
    intro i j fi fj hfi hfj hij x hx y hy
    have hj : j < folds := by
      have := (List.getElem?_eq_some_iff.mp hfj).1
      omega
    have hi : i < folds := by omega
    rw [priceDataSplit_getElem? offset folds foldSize n i hi] at hfi
    rw [priceDataSplit_getElem? offset folds foldSize n j hj] at hfj
    cases hfi
    cases hfj
    rw [mem_npArange] at hx hy
    have h1 : (1 : ℤ) * (foldSize : ℤ) ≤ ((folds - i : ℕ) : ℤ) * (foldSize : ℤ) -
        ((folds - j : ℕ) : ℤ) * (foldSize : ℤ) := by
      rw [← sub_mul]
      apply mul_le_mul_of_nonneg_right _ (by positivity)
      omega
    omega
  refine ⟨?_, hord, ?_, ?_⟩
  · intro f hf
    unfold priceDataSplit at hf
    rw [List.mem_map] at hf
    obtain ⟨k, _, rfl⟩ := hf
    rw [length_npArange]
    omega
  · intro i j fi fj hfi hfj hij x hxi hxj
    rcases lt_or_gt_of_ne hij with h | h
    · exact lt_irrefl x (hord i j fi fj hfi hfj h x hxi x hxj)
    · exact lt_irrefl x (hord j i fj fi hfj hfi h x hxj x hxi)
  · intro f hf x hx y hy
    unfold priceDataSplit at hf
    rw [List.mem_map] at hf
    obtain ⟨k, _, rfl⟩ := hf
    simp only [npArange0, mem_npArange] at hx
    rw [mem_npArange] at hy
    omega

/-- C8 witness: with two folds of size two over six rows, the first fold is
`([0,1], [2,3])`; its test window has length two, its training indices all
precede its test indices, and its test window is disjoint from the second
fold's `[4,5]`. -/
theorem c8_fold_windows_witness :
    ((priceDataSplit 0 2 2 6)[0]? = some ([0, 1], [2, 3]) ∧
      (priceDataSplit 0 2 2 6)[1]? = some ([0, 1, 2, 3], [4, 5])) ∧
    (([0, 1], ([2, 3] : List ℤ)).2.length = 2 ∧ ((2 : ℤ) ∉ [(4 : ℤ), 5])) := by
  refine ⟨⟨by decide, by decide⟩, ?_, ?_⟩
  · exact (c8_fold_windows 0 2 2 6).1 ([0, 1], [2, 3]) (by decide)
  · exact (c8_fold_windows 0 2 2 6).2.2.1 0 1 ([0, 1], [2, 3])
      ([0, 1, 2, 3], [4, 5]) (by decide) (by decide) (by decide) 2 (by decide)

/-! ## C9 — conversion works on a copy -/

/-- Reading any column after `setCol`. -/
lemma getCol_setCol (df : ColFrame) (c c2 : String) (vs : List ℚ) :
    getCol (setCol df c vs) c2 =
      if c2 = c then (getCol df c).map (fun _ => vs) else getCol df c2 := by
  induction df with
  | nil => by_cases h : c2 = c <;> simp [getCol, setCol, h]
  | cons p tl ih =>
    by_cases hpc : p.1 = c
    · by_cases h : c2 = c
      · have hpc2 : p.1 = c2 := by rw [hpc, h]
        simp [getCol, setCol, hpc, hpc2, h]
      · have hpc2 : ¬ p.1 = c2 := by rw [hpc]; intro hc; exact h hc.symm
        have h2 : ¬ c = c2 := fun hc => h hc.symm
        simp [getCol, setCol, hpc, hpc2, h, h2, ih]
    · by_cases hpc2 : p.1 = c2
      · have h : ¬ c2 = c := by rw [← hpc2]; exact hpc
        simp [getCol, setCol, hpc, hpc2, h]
      · simp only [setCol, if_neg hpc]
        rw [getCol, if_neg hpc2, ih]
        by_cases h : c2 = c
        · simp [getCol, h, hpc]
        · simp [getCol, h, hpc2]

/-- Reading any column after `dropCol`. -/
lemma getCol_dropCol (df : ColFrame) (c c2 : String) :
    getCol (dropCol df c) c2 = if c2 = c then none else getCol df c2 := by
  induction df with
  | nil => by_cases h : c2 = c <;> simp [getCol, dropCol, h]
  | cons p tl ih =>
    by_cases hpc : p.1 = c
    · by_cases h : c2 = c
      · subst h
        simp [dropCol, hpc, ih]
      · have hpc2 : ¬ p.1 = c2 := by rw [hpc]; intro hc; exact h hc.symm
        have h2 : ¬ c = c2 := fun hc => h hc.symm
        simp [dropCol, getCol, hpc, hpc2, ih, h, h2]
    · by_cases hpc2 : p.1 = c2
      · have h : ¬ c2 = c := by rw [← hpc2]; exact hpc
        simp [dropCol, getCol, hpc, hpc2, h]
      · simp [dropCol, getCol, hpc, hpc2, ih]

/-- `_convert_to_relative` leaves every other column untouched. -/
lemma getCol_convertToRelative_ne (df : ColFrame) (c c2 : String)
    (h : c2 ≠ c) :
    getCol (convertToRelative df c) c2 = getCol df c2 := by
  unfold convertToRelative
  cases hc : getCol df c with
  | none => rfl
  | some vs =>
      cases hcl : getCol df "Close" with
      | none => rfl
      | some cl => rw [getCol_setCol, if_neg h]

/-- `_convert_to_relative` rewrites the requested column row-wise as
`(value − Close) / Close`. -/
lemma getCol_convertToRelative_self (df : ColFrame) (c : String)
    (v cl : List ℚ) (hv : getCol df c = some v)
    (hcl : getCol df "Close" = some cl) :
    getCol (convertToRelative df c) c =
      some (List.zipWith (fun x k => (x - k) / k) v cl) := by
  unfold convertToRelative
  rw [hv, hcl, getCol_setCol, if_pos rfl, hv]
  rfl

/-- Converting a list of columns not containing `c2` leaves `c2` alone. -/
lemma getCol_foldl_convert_not_mem (cols : List String) (df : ColFrame)
    (c2 : String) (h : c2 ∉ cols) :
    getCol (cols.foldl convertToRelative df) c2 = getCol df c2 := by
  induction cols generalizing df with
  | nil => rfl
  | cons c tl ih =>
      rw [List.foldl_cons, ih _ (fun hm => h (List.mem_cons_of_mem _ hm)),
        getCol_convertToRelative_ne]
      intro hc
      exact h (hc ▸ List.mem_cons_self c tl)

/-- Converting a duplicate-free list of columns not containing `Close`
rewrites each member column relative to the untouched `Close`. -/
lemma getCol_foldl_convert_mem (cols : List String) (df : ColFrame)
    (col : String) (v cl : List ℚ) (hnd : cols.Nodup)
    (hcl0 : "Close" ∉ cols) (hmem : col ∈ cols)
    (hv : getCol df col = some v) (hc : getCol df "Close" = some cl) :
    getCol (cols.foldl convertToRelative df) col =
      some (List.zipWith (fun x k => (x - k) / k) v cl) := by
  induction cols generalizing df with
  | nil => cases hmem
  | cons c tl ih =>
      rw [List.foldl_cons]
      rcases List.mem_cons.mp hmem with hcc | htl
      · subst hcc
        have hnotin : col ∉ tl := (List.nodup_cons.mp hnd).1
        rw [getCol_foldl_convert_not_mem tl _ col hnotin]
        exact getCol_convertToRelative_self df col v cl hv hc
      · have hne : col ≠ c := by
          intro hc2
          exact (List.nodup_cons.mp hnd).1 (hc2 ▸ htl)
        have hclne : "Close" ≠ c := fun hc2 =>
          hcl0 (hc2 ▸ List.mem_cons_self c tl)
        exact ih (convertToRelative df c) (List.nodup_cons.mp hnd).2
          (fun hm => hcl0 (List.mem_cons_of_mem _ hm)) htl
          (by rw [getCol_convertToRelative_ne df c col hne]; exact hv)
          (by rw [getCol_convertToRelative_ne df c "Close" hclne]; exact hc)

/-- C9: `get_price_data_df` never changes the stored frame — the object
state returned alongside the frame is exactly the input state, for every
flag combination — and the relative rewrite `(value − Close)/Close` of
Open/High/Low (under `convert_ohl`) and of the relative-convertible columns
(under `convert_indicators`) shows up only in the returned copy.  The
hypotheses pin the standing frame invariants: indicator columns are
distinct and disjoint from the OHLCV base columns. -/
theorem c9_conversion_pure (s : PriceDataTimeframe) (a b c : Bool)
    (hrc : ∀ x ∈ s.relativeCols,
      x ≠ "Open" ∧ x ≠ "High" ∧ x ≠ "Low" ∧ x ≠ "Close" ∧ x ≠ "Volume")
    (hnd : s.relativeCols.Nodup) :
    ((getPriceDataDf s a b c).2 = s) ∧
    (∀ o hi lo cl,
      getCol s.priceDataDf "Open" = some o →
      getCol s.priceDataDf "High" = some hi →
      getCol s.priceDataDf "Low" = some lo →
      getCol s.priceDataDf "Close" = some cl →
      getCol (getPriceDataDf s true b c).1 "Open" =
          some (List.zipWith (fun v k => (v - k) / k) o cl) ∧
        getCol (getPriceDataDf s true b c).1 "High" =
          some (List.zipWith (fun v k => (v - k) / k) hi cl) ∧
        getCol (getPriceDataDf s true b c).1 "Low" =
          some (List.zipWith (fun v k => (v - k) / k) lo cl)) ∧
    (∀ col v cl, col ∈ s.relativeCols →
      getCol s.priceDataDf col = some v →
      getCol s.priceDataDf "Close" = some cl →
      getCol (getPriceDataDf s a true c).1 col =
        some (List.zipWith (fun v k => (v - k) / k) v cl)) := by
  have hOpenNm : "Open" ∉ s.relativeCols := fun hm => (hrc _ hm).1 rfl
  have hHighNm : "High" ∉ s.relativeCols := fun hm => (hrc _ hm).2.1 rfl
  have hLowNm : "Low" ∉ s.relativeCols := fun hm => (hrc _ hm).2.2.1 rfl
  have hCloseNm : "Close" ∉ s.relativeCols := fun hm => (hrc _ hm).2.2.2.1 rfl
  refine ⟨rfl, ?_, ?_⟩
  · intro o hi lo cl hO hH hL hC
    set dfA := convertToRelative (convertToRelative
      (convertToRelative s.priceDataDf "Open") "High") "Low" with hdfA
    have hAO : getCol dfA "Open" =
        some (List.zipWith (fun v k => (v - k) / k) o cl) := by
      rw [hdfA, getCol_convertToRelative_ne _ "Low" "Open" (by decide),
        getCol_convertToRelative_ne _ "High" "Open" (by decide)]
      exact getCol_convertToRelative_self _ "Open" o cl hO hC
    have hAH : getCol dfA "High" =
        some (List.zipWith (fun v k => (v - k) / k) hi cl) := by
      rw [hdfA, getCol_convertToRelative_ne _ "Low" "High" (by decide)]
      refine getCol_convertToRelative_self _ "High" hi cl ?_ ?_
      · rw [getCol_convertToRelative_ne _ "Open" "High" (by decide)]
        exact hH
      · rw [getCol_convertToRelative_ne _ "Open" "Close" (by decide)]
        exact hC
    have hAL : getCol dfA "Low" =
        some (List.zipWith (fun v k => (v - k) / k) lo cl) := by
      rw [hdfA]
      refine getCol_convertToRelative_self _ "Low" lo cl ?_ ?_
      · rw [getCol_convertToRelative_ne _ "High" "Low" (by decide),
          getCol_convertToRelative_ne _ "Open" "Low" (by decide)]
        exact hL
      · rw [getCol_convertToRelative_ne _ "High" "Close" (by decide),
          getCol_convertToRelative_ne _ "Open" "Close" (by decide)]
        exact hC
    have hB : ∀ c2, c2 ∉ s.relativeCols →
        getCol (if b then s.relativeCols.foldl convertToRelative dfA else dfA)
          c2 = getCol dfA c2 := by
      intro c2 hc2
      cases b with
      | false => rfl
      | true => exact getCol_foldl_convert_not_mem _ _ _ hc2
    cases hc : c with
    | false =>
        refine ⟨?_, ?_, ?_⟩
        · simp [getPriceDataDf, ← hdfA, hB "Open" hOpenNm, hAO]
        · simp [getPriceDataDf, ← hdfA, hB "High" hHighNm, hAH]
        · simp [getPriceDataDf, ← hdfA, hB "Low" hLowNm, hAL]
    | true =>
        refine ⟨?_, ?_, ?_⟩
        · simp [getPriceDataDf, ← hdfA, getCol_dropCol,
            hB "Open" hOpenNm, hAO]
        · simp [getPriceDataDf, ← hdfA, getCol_dropCol,
            hB "High" hHighNm, hAH]
        · simp [getPriceDataDf, ← hdfA, getCol_dropCol,
            hB "Low" hLowNm, hAL]
  · intro col v cl hmem hv hcl
    have hcol := hrc col hmem
    cases a with
    | false =>
        have hBcol : getCol (s.relativeCols.foldl convertToRelative
            s.priceDataDf) col =
            some (List.zipWith (fun v k => (v - k) / k) v cl) :=
          getCol_foldl_convert_mem _ _ col v cl hnd hCloseNm hmem hv hcl
        cases c with
        | false => simpa [getPriceDataDf] using hBcol
        | true => simp [getPriceDataDf, hBcol]
    | true =>
        have hv2 : getCol (convertToRelative (convertToRelative
            (convertToRelative s.priceDataDf "Open") "High") "Low") col =
            some v := by
          rw [getCol_convertToRelative_ne _ "Low" col hcol.2.2.1,
            getCol_convertToRelative_ne _ "High" col hcol.2.1,
            getCol_convertToRelative_ne _ "Open" col hcol.1]
          exact hv
        have hcl2 : getCol (convertToRelative (convertToRelative
            (convertToRelative s.priceDataDf "Open") "High") "Low")
            "Close" = some cl := by
          rw [getCol_convertToRelative_ne _ "Low" "Close" (by decide),
            getCol_convertToRelative_ne _ "High" "Close" (by decide),
            getCol_convertToRelative_ne _ "Open" "Close" (by decide)]
          exact hcl
        have hBcol := getCol_foldl_convert_mem s.relativeCols _ col v cl hnd
          hCloseNm hmem hv2 hcl2
        cases c with
        | false => simpa [getPriceDataDf] using hBcol
        | true =>
            simp [getPriceDataDf, getCol_dropCol, hcol.2.2.2.1,
              hcol.2.2.2.2, hBcol]

/-- C9 witness: converting the concrete frame `wFrame` with every flag set
leaves the stored state untouched and returns a copy whose Open column is
`[(10 − 10)/10] = [0]` and whose EMA column is `[(11 − 10)/10] = [1/10]`. -/
theorem c9_conversion_pure_witness :
    (getPriceDataDf wFrame true true true).2 = wFrame ∧
    getCol (getPriceDataDf wFrame true true true).1 "Open" = some [0] ∧
    getCol (getPriceDataDf wFrame true true true).1 "EMA" = some [1/10] := by
  have h := c9_conversion_pure wFrame true true true
    (by intro x hx; simp [wFrame] at hx; subst hx
        exact ⟨by decide, by decide, by decide, by decide, by decide⟩)
    (by simp [wFrame])
  refine ⟨h.1, ?_, ?_⟩
  · have h2 := (h.2.1 [10] [12] [9] [10] rfl rfl rfl rfl).1
    rw [h2]
    norm_num
  · have h3 := h.2.2 "EMA" [11] [10] (by simp [wFrame]) rfl rfl
    rw [h3]
    norm_num

/-! ## Exit resolution (C2, C3, C10) -/

/-- The "keep only the first marked row" pass does not change the minimum
marked timestamp: both equal the minimum timestamp among the rows
satisfying the raw predicate. -/
lemma minMarkedIdx_keepFirstHit (bars : List Bar) (p : Bar → Bool) :
    minMarkedIdx bars (keepFirstHit bars (bars.map p)) =
      ((bars.filter p).map (·.t)).min? := by
  have hzip : ∀ (q : Bar → Bool),
      ((bars.zip (bars.map q)).filter (·.2)).map (·.1.t) =
        (bars.filter q).map (·.t) := by
    intro q
    have h0 : bars.zip (bars.map q) = (bars.map id).zip (bars.map q) := by
      rw [List.map_id]
    rw [h0, List.zip_map', List.filter_map, List.map_map]
    simp [Function.comp_def]
  unfold minMarkedIdx keepFirstHit
  rw [hzip p]
  cases hmin : ((bars.filter p).map (·.t)).min? with
  | none => rw [hzip p, hmin]
  | some ft =>
      rw [hzip (fun b => decide (b.t = ft))]
      obtain ⟨hmem, -⟩ := intMin?_eq_some_iff.mp hmin
      rw [List.mem_map] at hmem
      obtain ⟨b, hbf, hbt⟩ := hmem
      rw [List.mem_filter] at hbf
      refine intMin?_eq_some_iff.mpr ⟨?_, ?_⟩
      · rw [List.mem_map]
        refine ⟨b, ?_, hbt⟩
        rw [List.mem_filter]
        exact ⟨hbf.1, by simp [hbt]⟩
      · intro x hx
        rw [List.mem_map] at hx
        obtain ⟨b2, hb2, hb2t⟩ := hx
        rw [List.mem_filter] at hb2
        have : b2.t = ft := by simpa using hb2.2
        omega

/-- The stop-loss candidate is the earliest timestamp among the bars
breaching the stop price. -/
lemma slCandidate_eq (bars : List Bar) (sl : ℚ) (tt : TradingType) :
    slCandidate bars (some sl) tt =
      ((bars.filter (slHitRaw sl tt)).map (·.t)).min? := by
  unfold slCandidate markSlHit
  exact minMarkedIdx_keepFirstHit bars (slHitRaw sl tt)

/-- The take-profit candidate is the earliest timestamp among the bars
reaching the take-profit price. -/
lemma tpCandidate_eq (bars : List Bar) (tp : ℚ) (tt : TradingType) :
    tpCandidate bars (some tp) tt =
      ((bars.filter (tpHitRaw tp tt)).map (·.t)).min? := by
  unfold tpCandidate markTpHit
  exact minMarkedIdx_keepFirstHit bars (tpHitRaw tp tt)

/-- Minimum of the present candidates, when `t` is a present candidate
bounding the others from below. -/
lemma candidates_min?_eq (cEx cSl cTp : Option ℤ) (t : ℤ)
    (h : cSl = some t ∨ cTp = some t ∨ cEx = some t)
    (hEx : ∀ u, cEx = some u → t ≤ u)
    (hSl : ∀ u, cSl = some u → t ≤ u)
    (hTp : ∀ u, cTp = some u → t ≤ u) :
    (([cEx, cSl, cTp].filterMap id).min?) = some t := by
  rcases hE2 : cEx with _ | e <;> rcases hS2 : cSl with _ | s <;>
    rcases hT2 : cTp with _ | u <;> subst hE2 <;> subst hS2 <;> subst hT2 <;>
    simp_all [List.filterMap, List.min?_cons'] <;> omega

/-- `get_exit_for_entry_signal` returns nothing when no candidate exists. -/
lemma getExit_eq_no_exit (post : List Bar) (slPrice tpPrice : Option ℚ)
    (tt : TradingType)
    (hS : slCandidate (post.drop 1) slPrice tt = none)
    (hT : tpCandidate (post.drop 1) tpPrice tt = none)
    (hE : exitCandidate (post.drop 1) = none) :
    getExitForEntrySignal post slPrice tpPrice tt = none := by
  simp only [getExitForEntrySignal]
  rw [hS, hT, hE]
  rfl

/-- `get_exit_for_entry_signal` returns the stop-loss event priced at the
stop-loss price when the stop-loss candidate is no later than every other
candidate. -/
lemma getExit_eq_sl (post : List Bar) (slPrice tpPrice : Option ℚ)
    (tt : TradingType) (t : ℤ)
    (hS : slCandidate (post.drop 1) slPrice tt = some t)
    (hT : ∀ u, tpCandidate (post.drop 1) tpPrice tt = some u → t ≤ u)
    (hE : ∀ u, exitCandidate (post.drop 1) = some u → t ≤ u) :
    getExitForEntrySignal post slPrice tpPrice tt = some ⟨t, slPrice⟩ := by
  simp only [getExitForEntrySignal]
  rw [candidates_min?_eq _ _ _ t (Or.inl hS) hE
    (fun u hu => by rw [hS] at hu; injection hu with h2; omega) hT]
  show (if slCandidate (post.drop 1) slPrice tt = some t then
      some (⟨t, slPrice⟩ : ExitSignal)
    else if tpCandidate (post.drop 1) tpPrice tt = some t then
      some ⟨t, tpPrice⟩
    else some ⟨t, closeAt (post.drop 1) t⟩) = some ⟨t, slPrice⟩
  rw [if_pos hS]

/-- `get_exit_for_entry_signal` returns the take-profit event priced at the
take-profit price when the take-profit candidate is strictly earlier than
the stop-loss candidate and no later than the signal-exit candidate. -/
lemma getExit_eq_tp (post : List Bar) (slPrice tpPrice : Option ℚ)
    (tt : TradingType) (t : ℤ)
    (hT : tpCandidate (post.drop 1) tpPrice tt = some t)
    (hS : ∀ u, slCandidate (post.drop 1) slPrice tt = some u → t < u)
    (hE : ∀ u, exitCandidate (post.drop 1) = some u → t ≤ u) :
    getExitForEntrySignal post slPrice tpPrice tt = some ⟨t, tpPrice⟩ := by
  simp only [getExitForEntrySignal]
  rw [candidates_min?_eq _ _ _ t (Or.inr (Or.inl hT)) hE
    (fun u hu => le_of_lt (hS u hu))
    (fun u hu => by rw [hT] at hu; injection hu with h2; omega)]
  show (if slCandidate (post.drop 1) slPrice tt = some t then
      some (⟨t, slPrice⟩ : ExitSignal)
    else if tpCandidate (post.drop 1) tpPrice tt = some t then
      some ⟨t, tpPrice⟩
    else some ⟨t, closeAt (post.drop 1) t⟩) = some ⟨t, tpPrice⟩
  rw [if_neg (fun hc => absurd (hS t hc) (lt_irrefl t)), if_pos hT]

/-- `get_exit_for_entry_signal` returns the signal exit priced at that
bar's Close when the signal-exit candidate is strictly earlier than both
price candidates. -/
lemma getExit_eq_signal (post : List Bar) (slPrice tpPrice : Option ℚ)
    (tt : TradingType) (t : ℤ)
    (hEx : exitCandidate (post.drop 1) = some t)
    (hS : ∀ u, slCandidate (post.drop 1) slPrice tt = some u → t < u)
    (hT : ∀ u, tpCandidate (post.drop 1) tpPrice tt = some u → t < u) :
    getExitForEntrySignal post slPrice tpPrice tt =
      some ⟨t, closeAt (post.drop 1) t⟩ := by
  simp only [getExitForEntrySignal]
  rw [candidates_min?_eq _ _ _ t (Or.inr (Or.inr hEx))
    (fun u hu => by rw [hEx] at hu; injection hu with h2; omega)
    (fun u hu => le_of_lt (hS u hu)) (fun u hu => le_of_lt (hT u hu))]
  show (if slCandidate (post.drop 1) slPrice tt = some t then
      some (⟨t, slPrice⟩ : ExitSignal)
    else if tpCandidate (post.drop 1) tpPrice tt = some t then
      some ⟨t, tpPrice⟩
    else some ⟨t, closeAt (post.drop 1) t⟩) =
      some ⟨t, closeAt (post.drop 1) t⟩
  rw [if_neg (fun hc => absurd (hS t hc) (lt_irrefl t)),
    if_neg (fun hc => absurd (hT t hc) (lt_irrefl t))]

/-! ## C2 — exit choice and tie priority -/

/-- C2: the exit returned by `get_exit_for_entry_signal` is whichever of
the three candidate events — earliest stop-loss touch, earliest take-profit
touch, earliest true exit-signal bar — is earliest; on a shared earliest
timestamp stop-loss beats take-profit and take-profit beats signal-exit,
the exit price being the stop-loss (resp. take-profit) price; and when no
candidate exists, no exit is returned. -/
theorem c2_exit_priority (post : List Bar) (slPrice tpPrice : Option ℚ)
    (tt : TradingType) :
    (slCandidate (post.drop 1) slPrice tt = none →
      tpCandidate (post.drop 1) tpPrice tt = none →
      exitCandidate (post.drop 1) = none →
      getExitForEntrySignal post slPrice tpPrice tt = none) ∧
    (∀ t : ℤ, slCandidate (post.drop 1) slPrice tt = some t →
      (∀ u, tpCandidate (post.drop 1) tpPrice tt = some u → t ≤ u) →
      (∀ u, exitCandidate (post.drop 1) = some u → t ≤ u) →
      getExitForEntrySignal post slPrice tpPrice tt = some ⟨t, slPrice⟩) ∧
    (∀ t : ℤ, tpCandidate (post.drop 1) tpPrice tt = some t →
      (∀ u, slCandidate (post.drop 1) slPrice tt = some u → t < u) →
      (∀ u, exitCandidate (post.drop 1) = some u → t ≤ u) →
      getExitForEntrySignal post slPrice tpPrice tt = some ⟨t, tpPrice⟩) ∧
    (∀ t : ℤ, exitCandidate (post.drop 1) = some t →
      (∀ u, slCandidate (post.drop 1) slPrice tt = some u → t < u) →
      (∀ u, tpCandidate (post.drop 1) tpPrice tt = some u → t < u) →
      getExitForEntrySignal post slPrice tpPrice tt =
        some ⟨t, closeAt (post.drop 1) t⟩) :=
  ⟨fun hS hT hE => getExit_eq_no_exit post slPrice tpPrice tt hS hT hE,
   fun t hS hT hE => getExit_eq_sl post slPrice tpPrice tt t hS hT hE,
   fun t hT hS hE => getExit_eq_tp post slPrice tpPrice tt t hT hS hE,
   fun t hEx hS hT => getExit_eq_signal post slPrice tpPrice tt t hEx hS hT⟩

/-- C2 witness: on `wTieBars` the second bar breaches stop-loss 50 and
take-profit 200 at the same timestamp 2, and the returned exit is the
stop-loss event priced at 50. -/
theorem c2_exit_priority_witness :
    getExitForEntrySignal wTieBars (some 50) (some 200) TradingType.long =
      some ⟨2, some 50⟩ := by
  have hS : slCandidate (wTieBars.drop 1) (some 50) TradingType.long =
      some 2 := by
    rw [show wTieBars.drop 1 = [⟨2, 250, 40, 150, false, false⟩] from rfl,
      slCandidate_eq]
    norm_num [slHitRaw, List.filter]
  have hT : tpCandidate (wTieBars.drop 1) (some 200) TradingType.long =
      some 2 := by
    rw [show wTieBars.drop 1 = [⟨2, 250, 40, 150, false, false⟩] from rfl,
      tpCandidate_eq]
    norm_num [tpHitRaw, List.filter]
  exact (c2_exit_priority wTieBars (some 50) (some 200)
      TradingType.long).2.1 2 hS
    (fun u hu => by rw [hT] at hu; injection hu with h2; omega)
    (fun u hu => by
      rw [show exitCandidate (wTieBars.drop 1) = none from rfl] at hu
      cases hu)

/-! ## C3 — touch predicates and scan window -/

/-- C3 counterexample: a bar whose High equals the take-profit price
exactly satisfies the claim's touch condition `High ≥ TP`, yet
`_mark_tp_hit` marks nothing on it (the code tests `High > TP`), and the
exit scan finds no exit for an entry whose only follow-up is that bar. -/
theorem c3_counterexample :
    (10 : ℚ) ≤ (⟨2, 10, 5, 7, false, false⟩ : Bar).high ∧
    markTpHit [⟨2, 10, 5, 7, false, false⟩] 10 TradingType.long = [false] ∧
    getExitForEntrySignal
      [⟨1, 11, 9, 10, true, false⟩, ⟨2, 10, 5, 7, false, false⟩]
      none (some 10) TradingType.long = none := by
  refine ⟨by norm_num, ?_, ?_⟩
  · norm_num [markTpHit, keepFirstHit, tpHitRaw, List.zip, List.zipWith,
      List.filter]
  · refine getExit_eq_no_exit _ _ _ _ rfl ?_ rfl
    rw [show ([⟨1, 11, 9, 10, true, false⟩,
        (⟨2, 10, 5, 7, false, false⟩ : Bar)].drop 1) =
        [⟨2, 10, 5, 7, false, false⟩] from rfl, tpCandidate_eq]
    norm_num [tpHitRaw, List.filter]

/-- C3 amended: the exit scan looks only at the rows after the first row of
the slice (the entry bar itself); within them, the stop-loss candidate is
the earliest bar with `Low < SL` for a long trade (`High > SL` short), and
the take-profit candidate the earliest bar with `High > TP` for a long
trade (`Low < TP` short) — strict inequalities, not the claim's weak
ones. -/
theorem c3_exit_scan_amended :
    (∀ (b c : Bar) (rest : List Bar) (slPrice tpPrice : Option ℚ)
        (tt : TradingType),
      getExitForEntrySignal (b :: rest) slPrice tpPrice tt =
        getExitForEntrySignal (c :: rest) slPrice tpPrice tt) ∧
    (∀ (bars : List Bar) (sl : ℚ),
      slCandidate bars (some sl) TradingType.long =
        ((bars.filter (fun b => decide (b.low < sl))).map (·.t)).min?) ∧
    (∀ (bars : List Bar) (sl : ℚ),
      slCandidate bars (some sl) TradingType.short =
        ((bars.filter (fun b => decide (sl < b.high))).map (·.t)).min?) ∧
    (∀ (bars : List Bar) (tp : ℚ),
      tpCandidate bars (some tp) TradingType.long =
        ((bars.filter (fun b => decide (tp < b.high))).map (·.t)).min?) ∧
    (∀ (bars : List Bar) (tp : ℚ),
      tpCandidate bars (some tp) TradingType.short =
        ((bars.filter (fun b => decide (b.low < tp))).map (·.t)).min?) := by
  refine ⟨fun b c rest slPrice tpPrice tt => rfl, ?_, ?_, ?_, ?_⟩
  · intro bars sl
    rw [slCandidate_eq,
      show slHitRaw sl TradingType.long = fun b => decide (b.low < sl) from
        funext fun b => by simp [slHitRaw]]
  · intro bars sl
    rw [slCandidate_eq,
      show slHitRaw sl TradingType.short = fun b => decide (sl < b.high) from
        funext fun b => by simp [slHitRaw]]
  · intro bars tp
    rw [tpCandidate_eq,
      show tpHitRaw tp TradingType.long = fun b => decide (tp < b.high) from
        funext fun b => by simp [tpHitRaw]]
  · intro bars tp
    rw [tpCandidate_eq,
      show tpHitRaw tp TradingType.short = fun b => decide (b.low < tp) from
        funext fun b => by simp [tpHitRaw]]

/-! ## C10 — exit pricing -/

/-- C10: a signal exit is priced at the Close of the exit-signal bar,
whereas stop-loss and take-profit exits are priced at exactly the stop-loss
resp. take-profit price handed to the scan — and every price produced by
`get_tp_price`/`get_sl_price` is a 3-decimal value (a `round(·, 3)` fixed
point). -/
theorem c10_exit_pricing :
    (∀ (post : List Bar) (slPrice tpPrice : Option ℚ) (tt : TradingType)
        (t : ℤ),
      exitCandidate (post.drop 1) = some t →
      (∀ u, slCandidate (post.drop 1) slPrice tt = some u → t < u) →
      (∀ u, tpCandidate (post.drop 1) tpPrice tt = some u → t < u) →
      getExitForEntrySignal post slPrice tpPrice tt =
        some ⟨t, closeAt (post.drop 1) t⟩) ∧
    (∀ (post : List Bar) (sl : ℚ) (tpPrice : Option ℚ) (tt : TradingType)
        (t : ℤ),
      slCandidate (post.drop 1) (some sl) tt = some t →
      (∀ u, tpCandidate (post.drop 1) tpPrice tt = some u → t ≤ u) →
      (∀ u, exitCandidate (post.drop 1) = some u → t ≤ u) →
      getExitForEntrySignal post (some sl) tpPrice tt = some ⟨t, some sl⟩) ∧
    (∀ (post : List Bar) (slPrice : Option ℚ) (tp : ℚ) (tt : TradingType)
        (t : ℤ),
      tpCandidate (post.drop 1) (some tp) tt = some t →
      (∀ u, slCandidate (post.drop 1) slPrice tt = some u → t < u) →
      (∀ u, exitCandidate (post.drop 1) = some u → t ≤ u) →
      getExitForEntrySignal post slPrice (some tp) tt = some ⟨t, some tp⟩) ∧
    (∀ (rc : RiskControl) (df : List Bar) (tt : TradingType) (p : ℚ),
      getTpPrice rc df tt = some p → round3 p = p) ∧
    (∀ (rc : RiskControl) (df : List Bar) (tt : TradingType) (p : ℚ),
      getSlPrice rc df tt = some p → round3 p = p) := by
  refine ⟨fun post slPrice tpPrice tt t hEx hS hT =>
      getExit_eq_signal post slPrice tpPrice tt t hEx hS hT,
    fun post sl tpPrice tt t hS hT hE =>
      getExit_eq_sl post (some sl) tpPrice tt t hS hT hE,
    fun post slPrice tp tt t hT hS hE =>
      getExit_eq_tp post slPrice (some tp) tt t hT hS hE, ?_, ?_⟩
  · intro rc df tt p hp
    unfold getTpPrice at hp
    cases hrc : rc.tp with
    | none => rw [hrc] at hp; cases hp
    | some rule =>
        cases rule with
        | fixedFrac f =>
            rw [hrc] at hp
            cases hl : df.getLast? with
            | none => rw [hl] at hp; cases hp
            | some b =>
                rw [hl] at hp
                dsimp only at hp
                injection hp with h
                rw [← h]
                exact roundDec_idem 3 _
        | fn g =>
            rw [hrc] at hp
            dsimp only at hp
            injection hp with h
            rw [← h]
            exact roundDec_idem 3 _
  · intro rc df tt p hp
    unfold getSlPrice at hp
    cases hrc : rc.sl with
    | fixedFrac f =>
        rw [hrc] at hp
        cases hl : df.getLast? with
        | none => rw [hl] at hp; cases hp
        | some b =>
            rw [hl] at hp
            dsimp only at hp
            injection hp with h
            rw [← h]
            exact roundDec_idem 3 _
    | fn g =>
        rw [hrc] at hp
        dsimp only at hp
        injection hp with h
        rw [← h]
        exact roundDec_idem 3 _

/-- C10 witness: on `wSigBars` (no price levels, exit signal on the second
bar) the exit is the exit-signal bar priced at its Close 8; and the
concrete take-profit price 20 produced by `wRc` on a close of 10 is a
3-decimal fixed point. -/
theorem c10_exit_pricing_witness :
    getExitForEntrySignal wSigBars none none TradingType.long =
      some ⟨2, some 8⟩ ∧ round3 (20 : ℚ) = 20 := by
  constructor
  · have h := c10_exit_pricing.1 wSigBars none none TradingType.long 2
      rfl
      (fun u hu => by
        rw [show slCandidate (wSigBars.drop 1) none TradingType.long = none
          from rfl] at hu
        cases hu)
      (fun u hu => by
        rw [show tpCandidate (wSigBars.drop 1) none TradingType.long = none
          from rfl] at hu
        cases hu)
    rw [h]
    rfl
  · exact c10_exit_pricing.2.2.2.1 wRc [⟨1, 11, 9, 10, true, false⟩]
      TradingType.long 20
      (by norm_num [getTpPrice, wRc, round3, roundDec, roundHalfEven])

/-! ## C1 — non-overlapping trades -/

/-- The entry loop keeps the recorded trades chained: every recorded exit
precedes the next recorded entry, and the first recorded entry is strictly
after the incoming `last_exit_idx`. -/
lemma evalLoop_chain (lr : ℚ) (rc : RiskControl) (tt : TradingType)
    (df : List Bar) (maxLev : ℤ) (fees : ℚ) :
    ∀ (idxs : List ℤ) (lb : WithBot ℤ),
      List.Chain' (fun a b => a.exit < b.entry)
        (evalLoop lr rc tt df maxLev fees idxs lb) ∧
      (∀ tr, (evalLoop lr rc tt df maxLev fees idxs lb).head? = some tr →
        lb < (tr.entry : WithBot ℤ))
  | [], lb => by simp [evalLoop]
  | idx :: rest, lb => by
      rw [evalLoop]
      by_cases hlt : lb < (idx : WithBot ℤ)
      · rw [if_pos hlt]
        cases hp : getProfitForSignal lr rc tt df idx maxLev fees with
        | none =>
            exact evalLoop_chain lr rc tt df maxLev fees rest lb
        | some pe =>
            obtain ⟨p, e⟩ := pe
            obtain ⟨ihc, ihh⟩ :=
              evalLoop_chain lr rc tt df maxLev fees rest (e : WithBot ℤ)
            dsimp only
            refine ⟨?_, ?_⟩
            · rw [List.chain'_cons']
              refine ⟨?_, ihc⟩
              intro y hy
              rw [Option.mem_def] at hy
              have h2 := ihh y hy
              exact_mod_cast h2
            · intro tr htr
              rw [List.head?_cons] at htr
              injection htr with h2
              subst h2
              exact hlt
      · rw [if_neg hlt]
        exact evalLoop_chain lr rc tt df maxLev fees rest lb

/-- C1: in the trade sequence recorded by `evaluate_performance`, trade
`i+1`'s entry timestamp is strictly greater than trade `i`'s exit
timestamp, for every strategy configuration and price series — entry
signals at or before the last recorded exit are skipped and record no
trade. -/
theorem c1_trade_sequence (lr : ℚ) (rc : RiskControl) (tt : TradingType)
    (df : List Bar) (maxLev : ℤ) (fees : ℚ) (i : ℕ) (t1 t2 : Trade)
    (h1 : (backtestTrades lr rc tt df maxLev fees)[i]? = some t1)
    (h2 : (backtestTrades lr rc tt df maxLev fees)[i + 1]? = some t2) :
    t1.exit < t2.entry := by
  have hc : List.Chain' (fun a b => a.exit < b.entry)
      (backtestTrades lr rc tt df maxLev fees) :=
    (evalLoop_chain lr rc tt df maxLev fees _ ⊥).1
  obtain ⟨hl1, he1⟩ := List.getElem?_eq_some_iff.mp h1
  obtain ⟨hl2, he2⟩ := List.getElem?_eq_some_iff.mp h2
  have hr := List.chain'_iff_get.mp hc i (by omega)
  rw [List.get_eq_getElem, List.get_eq_getElem] at hr
  rw [← he1, ← he2]
  exact hr

/-- The two trades actually recorded on the concrete series `wBars`. -/
lemma wBars_trades_eq :
    backtestTrades 0 wRc TradingType.long wBars 1 0 =
      [⟨1, 2, 1⟩, ⟨3, 4, 1⟩] := by
  have h1 : getProfitForSignal 0 wRc TradingType.long wBars 1 1 0 =
      some (1, 2) := by
    norm_num [getProfitForSignal, wBars, wRc, getSlPrice, getTpPrice,
      getExitForEntrySignal, exitCandidate, slCandidate, tpCandidate,
      minMarkedIdx, markSlHit, markTpHit, keepFirstHit, slHitRaw, tpHitRaw,
      List.filter, List.min?, closeAt, List.find?, getLeverageForPrices,
      getProfitForTrade, round3, roundDec, roundHalfEven, List.zip,
      List.zipWith, List.filterMap_cons, List.filterMap_nil, List.foldl_cons,
      List.foldl_nil, Option.map_some', Option.map_none', id_eq]
    rw [if_neg (by simp : ¬ (none : Option ℤ) = some 2)]
    norm_num
  have h3 : getProfitForSignal 0 wRc TradingType.long wBars 3 1 0 =
      some (1, 4) := by
    norm_num [getProfitForSignal, wBars, wRc, getSlPrice, getTpPrice,
      getExitForEntrySignal, exitCandidate, slCandidate, tpCandidate,
      minMarkedIdx, markSlHit, markTpHit, keepFirstHit, slHitRaw, tpHitRaw,
      List.filter, List.min?, closeAt, List.find?, getLeverageForPrices,
      getProfitForTrade, round3, roundDec, roundHalfEven, List.zip,
      List.zipWith, List.filterMap_cons, List.filterMap_nil, List.foldl_cons,
      List.foldl_nil, Option.map_some', Option.map_none', id_eq]
    rw [if_neg (by simp : ¬ (none : Option ℤ) = some 4)]
    norm_num
  have hentries : (wBars.filter (·.enter)).map (·.t) = [1, 3] := by
    norm_num [wBars, List.filter]
  unfold backtestTrades
  rw [hentries, evalLoop, if_pos (by decide : (⊥ : WithBot ℤ) <
    ((1 : ℤ) : WithBot ℤ)), h1]
  dsimp only
  rw [evalLoop, if_pos (by decide : (((2 : ℤ) : WithBot ℤ)) <
    ((3 : ℤ) : WithBot ℤ)), h3]
  dsimp only
  rw [evalLoop]

/-- C1 witness: `wBars` records the trades `(1 ↦ 2)` and `(3 ↦ 4)`, and
the second entry 3 is strictly after the first exit 2. -/
theorem c1_trade_sequence_witness :
    (backtestTrades 0 wRc TradingType.long wBars 1 0)[0]? =
      some ⟨1, 2, 1⟩ ∧
    (backtestTrades 0 wRc TradingType.long wBars 1 0)[1]? =
      some ⟨3, 4, 1⟩ ∧
    (⟨1, 2, 1⟩ : Trade).exit < (⟨3, 4, 1⟩ : Trade).entry := by
  refine ⟨by rw [wBars_trades_eq]; rfl, by rw [wBars_trades_eq]; rfl, ?_⟩
  exact c1_trade_sequence 0 wRc TradingType.long wBars 1 0 0 ⟨1, 2, 1⟩
    ⟨3, 4, 1⟩ (by rw [wBars_trades_eq]; rfl) (by rw [wBars_trades_eq]; rfl)

/-! ## C4 — zero-trade metrics -/

/-- The shared metric block on an empty return list. -/
lemma aggregateMetrics_nil :
    aggregateMetrics [] = (FloatVal.nan, FloatVal.val 0) := rfl

/-- The shared metric block on a non-empty return list. -/
lemma aggregateMetrics_ne_nil (l : List ℚ) (h : l ≠ []) :
    aggregateMetrics l =
      (FloatVal.val (round2
        (((l.filter (fun x => decide (0 < x))).length : ℚ) / (l.length : ℚ))),
       FloatVal.val (round3 (round2 l.sum / (l.length : ℚ)))) := by
  have hl : 0 < l.length := List.length_pos.mpr h
  simp [aggregateMetrics, hl]

/-- C4 counterexample: an evaluation recording zero trades returns a NaN
win rate but a PPS of `0.0`, not NaN — the claim's "both are NaN" fails. -/
theorem c4_counterexample :
    (evaluatePerformance 0 wRc TradingType.long [] 1 0).performanceDetailed
        = [] ∧
    (evaluatePerformance 0 wRc TradingType.long [] 1 0).winRate =
        FloatVal.nan ∧
    (evaluatePerformance 0 wRc TradingType.long [] 1 0).pps =
        FloatVal.val 0 ∧
    (evaluatePerformance 0 wRc TradingType.long [] 1 0).pps ≠
        FloatVal.nan :=
  ⟨rfl, rfl, rfl, by decide⟩

/-- C4 amended: with zero recorded trades, the win rate is NaN but the PPS
is `0.0`; with at least one trade, the win rate is the fraction of positive
returns rounded to two decimals, and the PPS is the two-decimal-rounded sum
divided by the trade count, rounded to three decimals.  This holds for
`evaluate_performance`, and for `cross_validate_strategy`, whose
aggregation over all folds works on the concatenated per-fold returns. -/
theorem c4_metrics (lr : ℚ) (rc : RiskControl) (tt : TradingType)
    (df : List Bar) (maxLev : ℤ) (fees : ℚ) (perFold : List (List ℚ))
    (folds foldSize : ℕ) :
    ((evaluatePerformance lr rc tt df maxLev fees).performanceDetailed = [] →
      (evaluatePerformance lr rc tt df maxLev fees).winRate = FloatVal.nan ∧
      (evaluatePerformance lr rc tt df maxLev fees).pps = FloatVal.val 0) ∧
    ((evaluatePerformance lr rc tt df maxLev fees).performanceDetailed ≠ [] →
      (evaluatePerformance lr rc tt df maxLev fees).winRate =
        FloatVal.val (round2
          ((((evaluatePerformance lr rc tt df maxLev
              fees).performanceDetailed.filter
                (fun x => decide (0 < x))).length : ℚ) /
            ((evaluatePerformance lr rc tt df maxLev
              fees).performanceDetailed.length : ℚ))) ∧
      (evaluatePerformance lr rc tt df maxLev fees).pps =
        FloatVal.val (round3
          (round2 (evaluatePerformance lr rc tt df maxLev
              fees).performanceDetailed.sum /
            ((evaluatePerformance lr rc tt df maxLev
              fees).performanceDetailed.length : ℚ)))) ∧
    (crossValidateStrategy folds foldSize lr rc tt df maxLev fees =
      crossValidateAggregate
        ((priceDataSplit 0 folds foldSize df.length).map (fun fold =>
          (evaluatePerformance lr rc tt (selectRows df fold.2) maxLev
            fees).performanceDetailed))) ∧
    (perFold.flatten = [] →
      (crossValidateAggregate perFold).winRate = FloatVal.nan ∧
      (crossValidateAggregate perFold).pps = FloatVal.val 0) ∧
    (perFold.flatten ≠ [] →
      (crossValidateAggregate perFold).winRate =
        FloatVal.val (round2
          (((perFold.flatten.filter (fun x => decide (0 < x))).length : ℚ) /
            (perFold.flatten.length : ℚ))) ∧
      (crossValidateAggregate perFold).pps =
        FloatVal.val (round3 (round2 perFold.flatten.sum /
          (perFold.flatten.length : ℚ)))) := by
  refine ⟨?_, ?_, rfl, ?_, ?_⟩
  · intro h
    simp only [evaluatePerformance] at h ⊢
    rw [h, aggregateMetrics_nil]
    exact ⟨rfl, rfl⟩
  · intro h
    simp only [evaluatePerformance] at h ⊢
    rw [aggregateMetrics_ne_nil _ h]
    exact ⟨rfl, rfl⟩
  · intro h
    simp only [crossValidateAggregate] at h ⊢
    rw [h, aggregateMetrics_nil]
    exact ⟨rfl, rfl⟩
  · intro h
    simp only [crossValidateAggregate] at h ⊢
    rw [aggregateMetrics_ne_nil _ h]
    exact ⟨rfl, rfl⟩

/-- C4 witness: the two recorded trades on `wBars` give win rate
`round(2/2, 2) = 1` and PPS `round(round(2, 2)/2, 3) = 1`, through the
amended formulas. -/
theorem c4_metrics_witness :
    (evaluatePerformance 0 wRc TradingType.long wBars 1 0).winRate =
      FloatVal.val 1 ∧
    (evaluatePerformance 0 wRc TradingType.long wBars 1 0).pps =
      FloatVal.val 1 := by
  have hdet : (evaluatePerformance 0 wRc TradingType.long
      wBars 1 0).performanceDetailed = [1, 1] := by
    show (backtestTrades 0 wRc TradingType.long wBars 1 0).map (·.profit) =
      [1, 1]
    rw [wBars_trades_eq]
    rfl
  have h := (c4_metrics 0 wRc TradingType.long wBars 1 0 [] 0 0).2.1
    (by rw [hdet]; exact fun hc => List.noConfusion hc)
  rw [hdet] at h
  obtain ⟨hw, hp⟩ := h
  refine ⟨?_, ?_⟩
  · rw [hw]
    norm_num [round2, roundDec, roundHalfEven, List.filter]
  · rw [hp]
    norm_num [round2, round3, roundDec, roundHalfEven]

end AIF
